import Mathlib

/-!
Verification of the memory lifecycle controller of
`examples/mem0_livekit_agent/mem0_agent.py`.

The controller is shallowly embedded: every remote call of the mem0 client
(`add`, `get_all`, `delete_all`) is an awaited, fallible operation, so its
outcome is passed in as an `Except String _` value; a `Except.error e`
outcome models the awaited call raising exception `e`, and `Except.ok`
models normal completion.  Python string truthiness is modelled by
comparing against the empty string (the `user_id` field is a `str`, and
`if not self.user_id` is exactly the test `user_id = ""` for a string).
-/

namespace Mem0Agent

/-- One element of the `messages` payload handed to `mem0.add`
(a dict with keys `role` and `content` in the source). -/
structure Message where
  role : String
  content : String
deriving DecidableEq, Repr

/-- A record returned by `mem0.get_all`.  The controller reads only the
`"memory"` key; `memory = none` models a record without that key. -/
structure MemoryRecord where
  memory : Option String
deriving DecidableEq, Repr

/-- The per-session mutable state of `MyAgent` that the claims range over:
`self.user_id` and the local cache `self.memories`. -/
structure AgentState where
  user_id : String
  memories : List String
deriving DecidableEq, Repr

/-- `self.user_id = username or "default_user"` (mem0_agent.py line 73). -/
def initUserId (username : Option String) : String :=
  match username with
  | none => "default_user"
  | some s => if s = "" then "default_user" else s

/- ### User-facing strings, verbatim from the source. -/

def noUserStoreMsg : String :=
  "I had trouble storing that information - no user identified"

def storeFailMsg : String :=
  "I had trouble storing that information"

def storeAckMsg (category : String) : String :=
  "Stored important information about " ++ category

def noUserWipeMsg : String :=
  "I had trouble clearing my memories - no user identified"

def wipeOkMsg : String :=
  "I\x27ve cleared all my memories. We can start fresh!"

def wipeFailMsg : String :=
  "I had trouble clearing my memories. Please try again."

def firstTimeGreeting : String :=
  "Greet the user and say: I\x27m glad we\x27re talking for the first time! I\x27m excited to help you plan your dream trip."

def summaryPrefix : String :=
  "I remember our previous conversation about your trip plans. "

/-- Python `s.lower()`: lower-case every character.  (Defined by a plain
map over the character list so that it evaluates by kernel reduction.) -/
def strLower (s : String) : String :=
  ⟨s.data.map Char.toLower⟩

/-- The greeting produced when a travel-related fact was found
(mem0_agent.py lines 176-181): the fact is referenced lower-cased. -/
def continuationWith (uid fact : String) : String :=
  "Greet " ++ uid ++ " and say: " ++ summaryPrefix ++
    "You were planning to " ++ strLower fact ++
    ". Would you like to continue planning this trip?"

/-- The greeting produced when facts exist but none is travel-related
(mem0_agent.py lines 178-181). -/
def continuationGeneric (uid : String) : String :=
  "Greet " ++ uid ++ " and say: " ++ summaryPrefix ++
    "Let\x27s continue planning your adventure!"

/- ### store_important_info (mem0_agent.py lines 99-137) -/

/-- Result of one `store_important_info` invocation: the cache afterwards,
the string returned to the caller, and the `messages` payload of the
remote `add` call when one was issued (`none` when no remote call was
attempted). -/
structure StoreResult where
  memories : List String
  reply : String
  remoteCall : Option (List Message)
deriving DecidableEq, Repr

/-- `store_important_info(self, context, info, category)`.  The body runs
under `try`: if `user_id` is falsy, return the no-user message without a
remote call; otherwise build `messages = [{"role": "assistant",
"content": info}]` and `await mem0.add(messages, ...)`.  Only when that
await returns normally is `info` appended to `self.memories` and the
acknowledgment returned; if it raises, `except Exception` catches it and
the failure message is returned with the cache untouched. -/
def store_important_info (st : AgentState) (info category : String)
    (addOutcome : Except String Unit) : StoreResult :=
  if st.user_id = "" then
    { memories := st.memories, reply := noUserStoreMsg, remoteCall := none }
  else
    let messages : List Message := [{ role := "assistant", content := info }]
    match addOutcome with
    | Except.ok _ =>
      { memories := st.memories ++ [info],
        reply := storeAckMsg category,
        remoteCall := some messages }
    | Except.error _ =>
      { memories := st.memories,
        reply := storeFailMsg,
        remoteCall := some messages }

/- ### wipe_memories (mem0_agent.py lines 78-97) -/

/-- Result of one `wipe_memories` invocation. -/
structure WipeResult where
  memories : List String
  reply : String
deriving DecidableEq, Repr

/-- `wipe_memories(self, context)`.  Under `try`: if `user_id` is falsy,
return the no-user message; otherwise `await mem0.delete_all(...)`.  Only
when that await returns normally is `self.memories = []` executed and the
success message returned; if it raises, `except Exception` catches it and
the failure message is returned with the cache untouched. -/
def wipe_memories (st : AgentState) (deleteOutcome : Except String Unit) :
    WipeResult :=
  if st.user_id = "" then
    { memories := st.memories, reply := noUserWipeMsg }
  else
    match deleteOutcome with
    | Except.ok _ => { memories := [], reply := wipeOkMsg }
    | Except.error _ => { memories := st.memories, reply := wipeFailMsg }

/- ### on_enter (mem0_agent.py lines 139-192) -/

/-- Contiguous-sublist test on character lists. -/
def listContains (sub : List Char) : List Char → Bool
  | [] => sub.isEmpty
  | c :: rest => List.isPrefixOf sub (c :: rest) || listContains sub rest

/-- Substring test: Python `sub in s` on strings. -/
def strContains (s sub : String) : Bool :=
  listContains sub.data s.data

/-- The fixed keyword set of mem0_agent.py line 172. -/
def travelKeywords : List String :=
  ["trip", "travel", "vacation", "cruise", "backpacking"]

/-- `any(word in m.lower() for word in [...])` (mem0_agent.py line 172). -/
def isTripMemory (m : String) : Bool :=
  travelKeywords.any (fun word => strContains (strLower m) word)

/-- Result of `on_enter`: the cache afterwards and the list of greeting
directives handed to `self.session.generate_reply` (in order). -/
structure EnterResult where
  memories : List String
  greetings : List String
deriving DecidableEq, Repr

/-- `on_enter(self)`.  Under `try`: if `user_id` is falsy, emit the
first-time greeting and return (cache untouched).  Otherwise
`await mem0.get_all(...)`; if that raises, `except Exception` sets
`self.memories = []` and emits the first-time greeting.  On success:
if the result list is falsy (empty), emit the first-time greeting
(cache untouched); otherwise set `self.memories` to the `"memory"`
field of every record that has one, then branch on whether that list
is non-empty and whether it has a travel-keyword match
(`trip_memories[0]`, the first match in retrieval order). -/
def on_enter (st : AgentState)
    (getAllOutcome : Except String (List MemoryRecord)) : EnterResult :=
  if st.user_id = "" then
    { memories := st.memories, greetings := [firstTimeGreeting] }
  else
    match getAllOutcome with
    | Except.error _ => { memories := [], greetings := [firstTimeGreeting] }
    | Except.ok records =>
      if records.isEmpty then
        { memories := st.memories, greetings := [firstTimeGreeting] }
      else
        let mems := records.filterMap (fun r => r.memory)
        if mems.isEmpty then
          { memories := mems, greetings := [firstTimeGreeting] }
        else
          match mems.filter isTripMemory with
          | [] =>
            { memories := mems, greetings := [continuationGeneric st.user_id] }
          | latest :: _ =>
            { memories := mems,
              greetings := [continuationWith st.user_id latest] }

/- ### on_exit (mem0_agent.py lines 195-207) -/

/-- The flush loop body: for each cached fact in order, one awaited
`mem0.add` call whose outcome is `outcome i` for the i-th call issued.
Returns the facts whose `add` call was issued, and the exception that
aborted the loop, if any.  A raising call is still an issued call, but
it terminates the loop (the whole `for` sits inside one `try`). -/
def flushGo (outcome : Nat → Except String Unit) :
    Nat → List String → List String × Option String
  | _, [] => ([], none)
  | i, m :: rest =>
    match outcome i with
    | Except.ok _ =>
      let r := flushGo outcome (i + 1) rest
      (m :: r.1, r.2)
    | Except.error e => ([m], some e)

/-- `on_exit(self)`: under `try`, if `self.memories` is truthy, loop over
it re-submitting each fact; `except Exception` swallows any error, so
`on_exit` always returns normally.  The returned list is the sequence of
facts for which a remote `add` call was issued. -/
def on_exit (st : AgentState) (outcome : Nat → Except String Unit) :
    List String :=
  if st.memories.isEmpty then []
  else (flushGo outcome 0 st.memories).1

/- ### Concurrency model for concurrent store_important_info calls -/

/-- Event-loop model of n concurrent `store_important_info` invocations
on one asyncio loop: `facts` indexes the invocations in call-issue order,
and `order` lists their indices in the order the awaited remote `add`
calls complete.  Each invocation suspends at `await mem0.add` (line 125)
and executes its cache append (line 132) when its own `add` completes, so
the appends run in completion order. -/
def run_completions (uid : String) (facts : List String)
    (order : List Nat) : List String :=
  order.foldl
    (fun cache i =>
      match facts[i]? with
      | some f =>
        (store_important_info ⟨uid, cache⟩ f "travel_planning"
          (Except.ok ())).memories
      | none => cache)
    []

/- ### Theorems -/

/-- C1 counterexample: with a user_id set, when the awaited `mem0.add`
raises, the fact is NOT in the cache afterwards — the append on line 132
is skipped because the exception jumps to the handler on line 134. -/
theorem store_no_append_on_failure_cex :
    ¬ ("pack sunscreen" ∈ (store_important_info ⟨"alice", []⟩
        "pack sunscreen" "preferences" (Except.error "network down")).memories) := by
  decide

/-- C1 (amended): with a user_id set, the fact is appended at the end of
the local cache when the awaited remote add returns successfully; when
the add raises, the exception is caught and the cache is unchanged. -/
theorem store_append_iff_add_ok (st : AgentState) (info category : String)
    (h : st.user_id ≠ "") :
    (store_important_info st info category (Except.ok ())).memories
      = st.memories ++ [info] ∧
    ∀ e : String,
      (store_important_info st info category (Except.error e)).memories
        = st.memories := by
  constructor
  · simp [store_important_info, h]
  · intro e
    simp [store_important_info, h]

/-- Witness for `store_append_iff_add_ok` at a concrete state. -/
theorem store_append_iff_add_ok_witness :
    (store_important_info ⟨"alice", ["old fact"]⟩ "new fact" "preferences"
        (Except.ok ())).memories = ["old fact"] ++ ["new fact"] ∧
    ∀ e : String,
      (store_important_info ⟨"alice", ["old fact"]⟩ "new fact" "preferences"
          (Except.error e)).memories = ["old fact"] :=
  store_append_iff_add_ok ⟨"alice", ["old fact"]⟩ "new fact" "preferences"
    (by decide)

/-- C2: with a user_id set, `wipe_memories` clears the local cache and
returns the success message exactly when the remote `delete_all` call
returns normally; when it raises, the cache holds exactly the facts it
held before and the apologetic message (distinct from the success
message) is returned. -/
theorem wipe_memories_spec (st : AgentState) (h : st.user_id ≠ "")
    (deleteOutcome : Except String Unit) :
    ((∃ u, deleteOutcome = Except.ok u) →
      (wipe_memories st deleteOutcome).memories = [] ∧
      (wipe_memories st deleteOutcome).reply = wipeOkMsg) ∧
    ((∃ e, deleteOutcome = Except.error e) →
      (wipe_memories st deleteOutcome).memories = st.memories ∧
      (wipe_memories st deleteOutcome).reply = wipeFailMsg) ∧
    wipeFailMsg ≠ wipeOkMsg := by
  refine ⟨?_, ?_, ?_⟩
  · rintro ⟨u, rfl⟩
    simp [wipe_memories, h]
  · rintro ⟨e, rfl⟩
    simp [wipe_memories, h]
  · decide

/-- Witness for `wipe_memories_spec`: a failing delete leaves the cache
intact and yields the apologetic message. -/
theorem wipe_memories_spec_witness :
    (wipe_memories ⟨"alice", ["fact a"]⟩ (Except.error "boom")).memories
      = ["fact a"] ∧
    (wipe_memories ⟨"alice", ["fact a"]⟩ (Except.error "boom")).reply
      = wipeFailMsg :=
  (wipe_memories_spec ⟨"alice", ["fact a"]⟩ (by decide)
    (Except.error "boom")).2.1 ⟨"boom", rfl⟩

/-- C6: both tools are total and always return one of their user-facing
strings, whatever the state and whatever the remote-call outcome
(including a raising remote call): no exception escapes either tool. -/
theorem tools_always_return_message (st : AgentState) (info category : String)
    (addOutcome deleteOutcome : Except String Unit) :
    ((store_important_info st info category addOutcome).reply = noUserStoreMsg ∨
     (store_important_info st info category addOutcome).reply = storeAckMsg category ∨
     (store_important_info st info category addOutcome).reply = storeFailMsg) ∧
    ((wipe_memories st deleteOutcome).reply = noUserWipeMsg ∨
     (wipe_memories st deleteOutcome).reply = wipeOkMsg ∨
     (wipe_memories st deleteOutcome).reply = wipeFailMsg) := by
  constructor
  · by_cases h : st.user_id = ""
    · left
      simp [store_important_info, h]
    · cases addOutcome <;> simp [store_important_info, h]
  · by_cases h : st.user_id = ""
    · left
      simp [wipe_memories, h]
    · cases deleteOutcome <;> simp [wipe_memories, h]

/-- C7: the `messages` payload of the remote add is independent of
`category`, and on a successful call it is exactly one assistant message
whose content is `info`; the category appears only in the acknowledgment
string returned to the caller. -/
theorem store_payload_excludes_category (st : AgentState)
    (info c₁ c₂ : String) (addOutcome : Except String Unit)
    (h : st.user_id ≠ "") :
    (store_important_info st info c₁ addOutcome).remoteCall
      = (store_important_info st info c₂ addOutcome).remoteCall ∧
    (addOutcome = Except.ok () →
      (store_important_info st info c₁ addOutcome).remoteCall
        = some [{ role := "assistant", content := info }] ∧
      (store_important_info st info c₁ addOutcome).reply = storeAckMsg c₁) := by
  constructor
  · cases addOutcome <;> simp [store_important_info, h]
  · rintro rfl
    simp [store_important_info, h]

/-- Witness for `store_payload_excludes_category` at a concrete call. -/
theorem store_payload_excludes_category_witness :
    (store_important_info ⟨"alice", []⟩ "book a cruise to Alaska"
        "travel_planning" (Except.ok ())).remoteCall
      = some [{ role := "assistant", content := "book a cruise to Alaska" }] ∧
    (store_important_info ⟨"alice", []⟩ "book a cruise to Alaska"
        "travel_planning" (Except.ok ())).reply
      = storeAckMsg "travel_planning" :=
  (store_payload_excludes_category ⟨"alice", []⟩ "book a cruise to Alaska"
    "travel_planning" "preferences" (Except.ok ()) (by decide)).2 rfl

/-- The head of a filtered list is the first element satisfying the
predicate, in order: this connects `trip_memories[0]` of the source to
the first-match formulation of the spec. -/
theorem head_filter_eq_find (p : String → Bool) (l : List String) :
    (l.filter p).head? = l.find? p := by
  induction l with
  | nil => rfl
  | cons a t ih =>
    by_cases h : p a
    · simp [List.filter, List.find?, h]
    · simp [List.filter, List.find?, h, ih]

/-- In the successful non-empty-result branch, the cache afterwards is
exactly the `"memory"` fields of the returned records, in retrieval
order, independent of the prior cache. -/
theorem on_enter_memories_of_ok (uid : String) (prior : List String)
    (records : List MemoryRecord) (h : uid ≠ "")
    (hr : records.isEmpty = false) :
    (on_enter ⟨uid, prior⟩ (Except.ok records)).memories
      = records.filterMap (fun r => r.memory) := by
  simp only [on_enter, h, if_false, hr, Bool.false_eq_true, if_neg,
    not_false_eq_true]
  split
  · rfl
  · split <;> rfl

/-- C4: when the awaited `get_all` raises, `on_enter` absorbs the
exception (it is a total function of the outcome), resets the cache to
empty, and hands exactly one greeting directive — the first-time
greeting — to the reply generator. -/
theorem on_enter_load_failure (uid : String) (prior : List String)
    (e : String) (h : uid ≠ "") :
    on_enter ⟨uid, prior⟩ (Except.error e)
      = { memories := [], greetings := [firstTimeGreeting] } := by
  simp [on_enter, h]

/-- Witness for `on_enter_load_failure` at a concrete failing load. -/
theorem on_enter_load_failure_witness :
    on_enter ⟨"alice", ["old fact"]⟩ (Except.error "timeout")
      = { memories := [], greetings := [firstTimeGreeting] } :=
  on_enter_load_failure "alice" ["old fact"] "timeout" (by decide)

/-- C3: the greeting for a successful load with a non-empty record list
is a three-way case split on the extracted facts: the first fact (in
store-retrieval order) containing a travel keyword, referenced
lower-cased inside `continuationWith`; the generic continuation when
facts exist but none matches; the first-time greeting when no facts were
extracted. -/
theorem on_enter_greeting_cases (uid : String) (prior : List String)
    (records : List MemoryRecord) (huid : uid ≠ "") :
    (on_enter ⟨uid, prior⟩ (Except.ok records)).greetings
      = [match (records.filterMap (fun r => r.memory)).find? isTripMemory with
         | some f => continuationWith uid f
         | none =>
           if (records.filterMap (fun r => r.memory)).isEmpty then
             firstTimeGreeting
           else continuationGeneric uid] := by
  by_cases hrec : records = []
  · subst hrec
    simp [on_enter, huid, List.find?]
  have hempty : records.isEmpty = false := by
    cases records with
    | nil => exact absurd rfl hrec
    | cons a t => rfl
  by_cases hm : (records.filterMap (fun r => r.memory)).isEmpty
  · have hnil : records.filterMap (fun r => r.memory) = [] :=
      List.isEmpty_iff.mp hm
    simp [on_enter, huid, hempty, hnil]
  · cases hfil : (records.filterMap (fun r => r.memory)).filter isTripMemory with
    | nil =>
      have hfind : (records.filterMap (fun r => r.memory)).find? isTripMemory
          = none := by
        rw [← head_filter_eq_find, hfil]
        rfl
      simp [on_enter, huid, hempty, hm, hfil, hfind]
    | cons f t =>
      have hfind : (records.filterMap (fun r => r.memory)).find? isTripMemory
          = some f := by
        rw [← head_filter_eq_find, hfil]
        rfl
      simp [on_enter, huid, hempty, hm, hfil, hfind]

set_option maxRecDepth 8192 in
/-- Witness for `on_enter_greeting_cases`: one travel-related record
produces the continuation greeting referencing that fact lower-cased. -/
theorem on_enter_greeting_cases_witness :
    (on_enter ⟨"alice", []⟩
        (Except.ok [⟨some "Planning a trip to Japan"⟩, ⟨some "likes sushi"⟩])).greetings
      = [continuationWith "alice" "Planning a trip to Japan"] := by
  rw [on_enter_greeting_cases "alice" []
    [⟨some "Planning a trip to Japan"⟩, ⟨some "likes sushi"⟩]
    (by decide)]
  decide

/-- C8: loading twice from the same remote snapshot, with no intervening
writes, leaves the same cache contents as loading once (the read is
idempotent), for every user_id and every load outcome. -/
theorem on_enter_idempotent (uid : String)
    (outcome : Except String (List MemoryRecord)) :
    (on_enter ⟨uid, (on_enter ⟨uid, []⟩ outcome).memories⟩ outcome).memories
      = (on_enter ⟨uid, []⟩ outcome).memories := by
  by_cases h : uid = ""
  · simp [on_enter, h]
  · cases outcome with
    | error e => simp [on_enter, h]
    | ok records =>
      by_cases hr : records.isEmpty
      · simp [on_enter, h, hr]
      · rw [on_enter_memories_of_ok uid _ records h (by simpa using hr),
          on_enter_memories_of_ok uid _ records h (by simpa using hr)]

/-- C10: a successful load whose records all lack the `"memory"` field
behaves exactly like a load that returned no records: empty cache and
the first-time greeting. -/
theorem on_enter_no_memory_fields (uid : String) (records : List MemoryRecord)
    (h : uid ≠ "") (hne : records ≠ [])
    (hall : ∀ r ∈ records, r.memory = none) :
    on_enter ⟨uid, []⟩ (Except.ok records)
      = on_enter ⟨uid, []⟩ (Except.ok []) ∧
    on_enter ⟨uid, []⟩ (Except.ok records)
      = { memories := [], greetings := [firstTimeGreeting] } := by
  have hmems : records.filterMap (fun r => r.memory) = [] :=
    List.filterMap_eq_nil_iff.mpr hall
  have hempty : records.isEmpty = false := by
    cases records with
    | nil => exact absurd rfl hne
    | cons a t => rfl
  constructor <;> simp [on_enter, h, hempty, hmems]

/-- Witness for `on_enter_no_memory_fields` at two field-less records. -/
theorem on_enter_no_memory_fields_witness :
    on_enter ⟨"alice", []⟩ (Except.ok [⟨none⟩, ⟨none⟩])
      = on_enter ⟨"alice", []⟩ (Except.ok []) ∧
    on_enter ⟨"alice", []⟩ (Except.ok [⟨none⟩, ⟨none⟩])
      = { memories := [], greetings := [firstTimeGreeting] } :=
  on_enter_no_memory_fields "alice" [⟨none⟩, ⟨none⟩] (by decide) (by decide)
    (by decide)

/-- The flush loop only ever issues add calls for a prefix of the cache,
in cache order. -/
theorem flushGo_prefix (outcome : Nat → Except String Unit) (i : Nat)
    (l : List String) : (flushGo outcome i l).1 <+: l := by
  induction l generalizing i with
  | nil => simp [flushGo]
  | cons m rest ih =>
    cases h : outcome i with
    | ok u =>
      obtain ⟨t, ht⟩ := ih (i + 1)
      exact ⟨t, by simp [flushGo, h, ht]⟩
    | error e => exact ⟨rest, by simp [flushGo, h]⟩

/-- When every add call of the flush loop returns normally, every cached
fact is submitted, once each, in cache order. -/
theorem flushGo_all_ok (outcome : Nat → Except String Unit) (i : Nat)
    (l : List String)
    (h : ∀ j, j < l.length → outcome (i + j) = Except.ok ()) :
    (flushGo outcome i l).1 = l := by
  induction l generalizing i with
  | nil => rfl
  | cons m rest ih =>
    have h0 : outcome i = Except.ok () := by
      simpa using h 0 (by simp)
    have hrest : ∀ j, j < rest.length → outcome (i + 1 + j) = Except.ok () := by
      intro j hj
      have hj1 : j + 1 < (m :: rest).length := by
        simpa using Nat.succ_lt_succ hj
      have := h (j + 1) hj1
      have harith : i + (j + 1) = i + 1 + j := by omega
      rw [harith] at this
      exact this
    simp [flushGo, h0, ih (i + 1) hrest]

/-- C5 (amended): `on_exit` submits one remote add call per cached fact,
in cache order, stopping after the first add call that raises; the
exception is caught (the whole loop sits in one try/except), so `on_exit`
always returns normally, but the facts after a failing one are not
re-submitted.  When no add call raises, every cached fact is submitted
exactly once, in order. -/
theorem on_exit_flush_spec (st : AgentState)
    (outcome : Nat → Except String Unit) :
    on_exit st outcome <+: st.memories ∧
    ((∀ i, i < st.memories.length → outcome i = Except.ok ()) →
      on_exit st outcome = st.memories) := by
  constructor
  · by_cases h : st.memories.isEmpty
    · simp [on_exit, h]
    · simpa [on_exit, h] using flushGo_prefix outcome 0 st.memories
  · intro hok
    by_cases h : st.memories.isEmpty
    · simp [on_exit, h, List.isEmpty_iff.mp h]
    · simpa [on_exit, h] using
        flushGo_all_ok outcome 0 st.memories (by simpa using hok)

/-- Witness for `on_exit_flush_spec`: with two cached facts and no
failures, both facts are re-submitted in order. -/
theorem on_exit_flush_spec_witness :
    on_exit ⟨"alice", ["fact one", "fact two"]⟩ (fun _ => Except.ok ())
      = ["fact one", "fact two"] :=
  (on_exit_flush_spec ⟨"alice", ["fact one", "fact two"]⟩
    (fun _ => Except.ok ())).2 (fun _ _ => rfl)

/-- C5 counterexample: when the first add call of the flush raises, the
loop aborts — the second cached fact is never re-submitted, contradicting
the claim that a failing write does not prevent the remaining facts from
being re-submitted. -/
theorem on_exit_aborts_after_failure_cex :
    on_exit ⟨"alice", ["fact one", "fact two"]⟩
        (fun i => if i == 0 then Except.error "network down" else Except.ok ())
      = ["fact one"] ∧
    ¬ ("fact two" ∈ on_exit ⟨"alice", ["fact one", "fact two"]⟩
        (fun i => if i == 0 then Except.error "network down"
                  else Except.ok ())) := by
  constructor <;> decide

/-- Generalized accumulator form of `run_completions`: executing the
pending appends in completion order extends the cache by the facts in
completion order. -/
theorem run_completions_aux (uid : String) (h : uid ≠ "")
    (facts : List String) (order : List Nat) (cache : List String) :
    order.foldl
      (fun cache i =>
        match facts[i]? with
        | some f =>
          (store_important_info ⟨uid, cache⟩ f "travel_planning"
            (Except.ok ())).memories
        | none => cache)
      cache
      = cache ++ order.filterMap (fun i => facts[i]?) := by
  induction order generalizing cache with
  | nil => simp
  | cons j rest ih =>
    cases hj : facts[j]? with
    | none =>
      rw [List.foldl_cons, List.filterMap_cons]
      simp only [hj]
      exact ih cache
    | some f =>
      rw [List.foldl_cons, List.filterMap_cons]
      simp only [hj]
      have hstep : (store_important_info ⟨uid, cache⟩ f "travel_planning"
          (Except.ok ())).memories = cache ++ [f] := by
        simp [store_important_info, h]
      rw [hstep, ih (cache ++ [f])]
      simp

/-- C9 (amended): under concurrent `store_important_info` invocations,
each invocation appends its fact when its own awaited add completes, so
the final cache lists the facts in remote-completion order (for any
completion order of the issued calls), not necessarily in call-issue
order. -/
theorem run_completions_matches_completion_order (uid : String)
    (h : uid ≠ "") (facts : List String) (order : List Nat) :
    run_completions uid facts order
      = order.filterMap (fun i => facts[i]?) := by
  simpa [run_completions] using run_completions_aux uid h facts order []

/-- Witness for `run_completions_matches_completion_order` at a concrete
completion order. -/
theorem run_completions_matches_completion_order_witness :
    run_completions "alice" ["F1", "F2"] [1, 0]
      = [1, 0].filterMap (fun i => ["F1", "F2"][i]?) :=
  run_completions_matches_completion_order "alice" (by decide)
    ["F1", "F2"] [1, 0]

/-- C9 counterexample: two concurrent store calls issued as F1 then F2
whose remote adds complete in the reverse order leave the cache in
completion order [F2, F1], not the claimed issue order [F1, F2]. -/
theorem run_completions_order_cex :
    run_completions "alice" ["F1", "F2"] [1, 0] = ["F2", "F1"] ∧
    run_completions "alice" ["F1", "F2"] [1, 0] ≠ ["F1", "F2"] := by
  constructor <;> decide

end Mem0Agent
